import Mathlib

/-
Verification of the wmradioyear playback-dashboard core (src/wmradioyear.py).

The script loads a CSV playback log into a dataframe, drops ad/promo rows,
derives day-of-week and hour-of-day, filters by a weekday selection and an
inclusive hour range, and computes four aggregates: top-N value counts for
songs/artists, per-song mean gap between consecutive plays, a day x hour
frequency table, and a daily play-count time series.

The dataframe is modelled as a `List Record`; timestamps are POSIX seconds
(naive, no timezone conversion, matching the script which performs none).
Missing CSV cells (pandas NaN) are modelled as `none`; an unparseable
timestamp cell is likewise `none` in the raw row, since the only information
the script uses about such a cell is that parsing failed.
-/

namespace WMRadio

/-- English weekday names, Monday-first, exactly the option list of the
sidebar multiselect (lines 33-37) and the values `dt.day_name()` produces. -/
def dayNames : List String :=
  ["Monday", "Tuesday", "Wednesday", "Thursday", "Friday", "Saturday", "Sunday"]

/-- Weekday name of a POSIX timestamp in seconds (`dt.day_name()`, line 16).
Day 0 (1970-01-01) was a Thursday, index 3 of the Monday-first list. -/
def dayName (t : Nat) : String := dayNames.getD ((t / 86400 + 3) % 7) ""

/-- Hour of day, 0..23, of a POSIX timestamp in seconds (`dt.hour`, line 17). -/
def hourOf (t : Nat) : Nat := t % 86400 / 3600

/-- One raw CSV row. Each field holds the parse result of the cell:
`timestamp = none` means the text was unparseable as a calendar timestamp,
`artist`/`song`/`artwork = none` means the cell was empty (pandas NaN). -/
structure RawRow where
  timestamp : Option Nat
  artist : Option String
  song : Option String
  artwork : Option String
deriving DecidableEq

/-- A raw tabular source: the column names present in the header, plus rows. -/
structure RawSource where
  cols : List String
  rows : List RawRow
deriving DecidableEq

/-- One row of the cleaned dataset, with the derived calendar fields. -/
structure Record where
  timestamp : Nat
  artist : Option String
  song : Option String
  artwork : Option String
  day_of_week : String
  hour : Nat
deriving DecidableEq

/-- The fixed network-identity sentinel for `artist` (line 13). -/
def sentinelArtist : String := "The WMW Radio Network"

/-- The fixed promo sentinel for `song` (line 13). -/
def sentinelSong : String := "Promo"

/-- The boolean mask of line 13: keep a row unless its artist is the network
sentinel or its song is the promo sentinel. pandas equality of NaN with a
string is False, so a missing artist/song never matches a sentinel. -/
def keepRow (r : RawRow) : Bool :=
  !(decide (r.artist = some sentinelArtist) || decide (r.song = some sentinelSong))

/-- Build a cleaned record from a raw row: copy the fields and derive
`day_of_week` and `hour` from the timestamp (lines 16-17). Only applied to
rows whose timestamp parsed, so the `getD 0` default is never reached. -/
def toRecord (r : RawRow) : Record :=
  let t := r.timestamp.getD 0
  { timestamp := t, artist := r.artist, song := r.song, artwork := r.artwork,
    day_of_week := dayName t, hour := hourOf t }

/-- The ways `load_data` can fail: a required column absent from the header
(raised by `read_csv(parse_dates=['timestamp'])` for `timestamp`, by the
column lookups on line 13 for `artist`/`song`), or a timestamp cell that does
not parse (surfacing at the `.dt` accessor on line 16). The spec groups all
of these as `FormatError`. -/
inductive LoadError where
  | missingColumn (name : String)
  | badTimestamp
deriving DecidableEq

/-- Model of `load_data` (lines 7-18): require the three columns, require every
timestamp cell to parse, drop sentinel rows, derive the calendar fields.
On any failure no dataset is produced. The artwork-column rename of lines
10-11 only renames `artwork_large` to `artwork_url`; the `artwork` field of
the model already holds that cell's value, so the rename is the identity here. -/
def load_data (src : RawSource) : Except LoadError (List Record) :=
  if "timestamp" ∉ src.cols then .error (.missingColumn "timestamp")
  else if "artist" ∉ src.cols then .error (.missingColumn "artist")
  else if "song" ∉ src.cols then .error (.missingColumn "song")
  else if src.rows.any (fun r => r.timestamp.isNone) then .error .badTimestamp
  else .ok ((src.rows.filter keepRow).map toRecord)

/-- The row predicate of line 45: `day_of_week.isin(days) & hour.between(lo, hi)`;
pandas `between` is inclusive on both ends by default. -/
def rowPass (days : List String) (lo hi : Nat) (r : Record) : Bool :=
  decide (r.day_of_week ∈ days) && (decide (lo ≤ r.hour) && decide (r.hour ≤ hi))

/-- Model of `filter_data` (lines 43-45): boolean-mask selection, which keeps the
surviving rows in their original order and does not mutate the input. -/
def filter_data (df : List Record) (days : List String) (hour_range : Nat × Nat) :
    List Record :=
  df.filter (rowPass days hour_range.1 hour_range.2)

/-- Distinct elements of a list in order of first occurrence, skipping those
already in `seen`. This is the key order a pandas hashtable produces. -/
def firstSeenAux {α : Type} [DecidableEq α] (seen : List α) : List α → List α
  | [] => []
  | a :: l => if a ∈ seen then firstSeenAux seen l else a :: firstSeenAux (a :: seen) l

/-- Distinct elements of a list in order of first occurrence. -/
def firstSeen {α : Type} [DecidableEq α] (l : List α) : List α := firstSeenAux [] l

/-- Descending-count order on (value, count) pairs, the sort key of
`value_counts()`. -/
def countDesc (a b : String × Nat) : Prop := b.2 ≤ a.2

instance : DecidableRel countDesc := fun a b => Nat.decLe b.2 a.2

instance : IsTotal (String × Nat) countDesc := ⟨fun a b => Nat.le_total b.2 a.2⟩

instance : IsTrans (String × Nat) countDesc := ⟨fun _ _ _ h1 h2 => Nat.le_trans h2 h1⟩

/-- The (value, count) pairs of a column before sorting: one pair per distinct
non-missing value, keys in first-encounter order, as the `value_counts`
hashtable produces them. Missing values (`none`) are dropped (`dropna=True`). -/
def basePairs (vals : List (Option String)) : List (String × Nat) :=
  (firstSeen (vals.filterMap id)).map (fun k => (k, (vals.filterMap id).count k))

/-- Model of `Series.value_counts()`: counts per distinct non-missing value, sorted
descending by count; equal counts keep the hashtable's first-encounter order
(a stable sort on the key list). -/
def value_counts (vals : List (Option String)) : List (String × Nat) :=
  (basePairs vals).insertionSort countDesc

/-- Model of `value_counts().head(n)` over one column of the dataset (lines 64, 69). -/
def topN (df : List Record) (field : Record → Option String) (n : Nat) :
    List (String × Nat) :=
  (value_counts (df.map field)).take n

/-- Model of line 64: `top_songs = filtered['song'].value_counts().head(30)`. -/
def top_songs (df : List Record) : List (String × Nat) := topN df (fun r => r.song) 30

/-- Model of line 74: `top_song_names = top_songs.index.tolist()`. -/
def top_song_names (df : List Record) : List String := (top_songs df).map (fun p => p.1)

/-- Sum of the counts of a (value, count) sequence. -/
def countsSum (l : List (String × Nat)) : Nat := (l.map (fun p => p.2)).sum

/-- This song's timestamps, sorted ascending (`sort_values()`, line 84). -/
def songTimes (df : List Record) (s : String) : List Nat :=
  ((df.filter (fun r => decide (r.song = some s))).map (fun r => r.timestamp)).insertionSort
    (fun a b => a ≤ b)

/-- Model of line 85, `diff().dropna()` scaled by `total_seconds() / 3600` (line 85): consecutive
differences of a timestamp list, in hours, as exact rationals. -/
def diffsHours (l : List Nat) : List ℚ :=
  l.zipWith (fun a b : Nat => ((b : ℚ) - (a : ℚ)) / 3600) l.tail

/-- Floor of a rational, computed on the numerator and denominator. -/
def ratFloor (q : ℚ) : ℤ := Int.fdiv q.num q.den

/-- Python's builtin `round` to 0 digits: nearest integer, halves to even. -/
def pyRound (q : ℚ) : ℤ :=
  let n := ratFloor q
  if q - n < 1/2 then n
  else if (1 : ℚ)/2 < q - n then n + 1
  else if n % 2 = 0 then n else n + 1

/-- Model of `round(x, 2)` (line 87): round to two decimal places. -/
def round2 (q : ℚ) : ℚ := (pyRound (q * 100) : ℚ) / 100

/-- The per-song average-gap statistic of lines 84-87: mean of the consecutive
differences of the sorted timestamps, rounded to two decimals; `none` models
the `np.nan` stored when the song has fewer than two plays (empty `diffs`). -/
def avgGap (df : List Record) (s : String) : Option ℚ :=
  let diffs := diffsHours (songTimes df s)
  if diffs.isEmpty then none else some (round2 (diffs.sum / (diffs.length : ℚ)))

/-- The `avg_data` table of lines 82-88: one (song, average gap) entry per
top song of the filtered dataset. -/
def avg_data (df : List Record) : List (String × Option ℚ) :=
  (top_song_names df).map (fun s => (s, avgGap df s))

/-- Modelled from the spec: the spec's description of the inter-play gap
statistic, for comparison with `avgGap` — sort the song's timestamps
ascending, take consecutive differences in hours, and return their arithmetic
mean, undefined when the song has fewer than two plays. The spec does not
mention the two-decimal rounding the code applies. -/
def specMeanGap (df : List Record) (s : String) : Option ℚ :=
  let times := songTimes df s
  if times.length < 2 then none
  else some ((diffsHours times).sum / ((diffsHours times).length : ℚ))

/-- Model of `heatmap_df` (lines 94-98): group by the (day_of_week, hour) pair and
count rows. pandas sorts the group keys; the claims are insensitive to entry
order, and the model lists the keys in first-occurrence order instead. -/
def heatmap_df (df : List Record) : List ((String × Nat) × Nat) :=
  (firstSeen (df.map (fun r => (r.day_of_week, r.hour)))).map
    (fun k => (k, (df.map (fun r => (r.day_of_week, r.hour))).count k))

/-- Model of `daily_counts` (line 108), `resample('D').size()` — play counts per
calendar day, zero-filled from the earliest to the latest day present, and
empty on an empty dataset. -/
def dailyCounts (df : List Record) : List (Nat × Nat) :=
  match (df.map (fun r => r.timestamp / 86400)).min?,
      (df.map (fun r => r.timestamp / 86400)).max? with
  | some lo, some hi =>
    (List.range (hi - lo + 1)).map
      (fun i => (lo + i, (df.map (fun r => r.timestamp / 86400)).count (lo + i)))
  | _, _ => []

section FirstSeenLemmas

variable {α : Type} [DecidableEq α]

theorem mem_firstSeenAux {a : α} :
    ∀ (seen l : List α), a ∈ firstSeenAux seen l ↔ a ∈ l ∧ a ∉ seen := by
  intro seen l
  induction l generalizing seen with
  | nil => simp [firstSeenAux]
  | cons b l ih =>
    by_cases hb : b ∈ seen
    · rw [firstSeenAux, if_pos hb, ih]
      simp only [List.mem_cons]
      constructor
      · exact fun h => ⟨Or.inr h.1, h.2⟩
      · rintro ⟨h1 | h1, h2⟩
        · exact absurd (h1.symm ▸ hb : a ∈ seen) h2
        · exact ⟨h1, h2⟩
    · rw [firstSeenAux, if_neg hb]
      simp only [List.mem_cons, ih]
      constructor
      · rintro (rfl | ⟨h1, h2⟩)
        · exact ⟨Or.inl rfl, hb⟩
        · exact ⟨Or.inr h1, fun hs => h2 (Or.inr hs)⟩
      · rintro ⟨rfl | h1, h2⟩
        · exact Or.inl rfl
        · by_cases hab : a = b
          · exact Or.inl hab
          · exact Or.inr ⟨h1, by simp [List.mem_cons, hab, h2]⟩

theorem mem_firstSeen {a : α} {l : List α} : a ∈ firstSeen l ↔ a ∈ l := by
  rw [firstSeen, mem_firstSeenAux]
  simp

theorem nodup_firstSeenAux : ∀ (seen l : List α), (firstSeenAux seen l).Nodup := by
  intro seen l
  induction l generalizing seen with
  | nil => simp [firstSeenAux]
  | cons b l ih =>
    by_cases hb : b ∈ seen
    · rw [firstSeenAux, if_pos hb]
      exact ih seen
    · rw [firstSeenAux, if_neg hb, List.nodup_cons]
      refine ⟨fun hmem => ?_, ih _⟩
      exact ((mem_firstSeenAux _ _).1 hmem).2 (List.mem_cons_self _ _)

theorem nodup_firstSeen (l : List α) : (firstSeen l).Nodup := nodup_firstSeenAux [] l

theorem toFinset_firstSeen (l : List α) : (firstSeen l).toFinset = l.toFinset := by
  ext a
  simp [List.mem_toFinset, mem_firstSeen]

theorem sum_counts_firstSeen_dec (l : List α) :
    ((firstSeen l).map (fun k => l.count k)).sum = l.length := by
  rw [← List.sum_toFinset _ (nodup_firstSeen l), toFinset_firstSeen]
  simp

/-- The value of `List.count` does not depend on which lawful `BEq` instance is in scope. -/
theorem count_indep [BEq α] [LawfulBEq α] (a : α) (l : List α) :
    l.count a = @List.count α instBEqOfDecidableEq a l := by
  rw [List.count_eq_countP, @List.count_eq_countP α instBEqOfDecidableEq]
  apply List.countP_congr
  intro x _
  simp

theorem sum_counts_firstSeen [BEq α] [LawfulBEq α] (l : List α) :
    ((firstSeen l).map (fun k => l.count k)).sum = l.length := by
  have hmap : (firstSeen l).map (fun k => l.count k) =
      (firstSeen l).map (fun k => @List.count α instBEqOfDecidableEq k l) :=
    List.map_congr_left fun k _ => count_indep k l
  rw [hmap]
  exact sum_counts_firstSeen_dec l

end FirstSeenLemmas

/-- Claim C1: `filter_data` returns exactly the rows whose `day_of_week` is in
the selected weekday list and whose `hour` lies in the inclusive range
`[s, e]`: the result is a sublist of the input (so the surviving rows keep
their original relative order), membership is characterised by the predicate,
and every matching row keeps its full multiplicity. -/
theorem filter_data_exact (df : List Record) (days : List String) (s e : Nat) :
    (filter_data df days (s, e)).Sublist df ∧
    (∀ r : Record, r ∈ filter_data df days (s, e) ↔
      r ∈ df ∧ r.day_of_week ∈ days ∧ s ≤ r.hour ∧ r.hour ≤ e) ∧
    (∀ r : Record, (filter_data df days (s, e)).count r =
      if r.day_of_week ∈ days ∧ s ≤ r.hour ∧ r.hour ≤ e then df.count r else 0) := by
  refine ⟨List.filter_sublist df, fun r => ?_, fun r => ?_⟩
  · simp [filter_data, List.mem_filter, rowPass, and_assoc]
  · by_cases h : r.day_of_week ∈ days ∧ s ≤ r.hour ∧ r.hour ≤ e
    · rw [if_pos h]
      simp only [filter_data]
      exact List.count_filter (by simp [rowPass, h.1, h.2.1, h.2.2])
    · rw [if_neg h, List.count_eq_zero]
      intro hmem
      apply h
      simp only [filter_data, List.mem_filter] at hmem
      simpa [rowPass, and_assoc] using hmem.2

/-- Claim C2: filtering with an empty weekday selection yields an empty
result, and so does an hour range with `start > end`; neither is an error. -/
theorem filter_data_empty_cases (df : List Record) (days : List String) (s e : Nat) :
    filter_data df [] (s, e) = [] ∧ (e < s → filter_data df days (s, e) = []) := by
  constructor
  · simp [filter_data, rowPass]
  · intro h
    rw [filter_data, List.filter_eq_nil_iff]
    intro r _
    simp only [rowPass, Bool.and_eq_true, decide_eq_true_eq, not_and]
    intro _ hs
    omega

/-- Claim C10: `filter_data` is idempotent — filtering an already-filtered
dataset with the same weekday selection and hour range changes nothing. -/
theorem filter_data_idempotent (df : List Record) (days : List String)
    (hr : Nat × Nat) :
    filter_data (filter_data df days hr) days hr = filter_data df days hr := by
  simp [filter_data, List.filter_filter]

/-- A sample raw row: timestamp in POSIX seconds, artist, song, no artwork. -/
def mkRow (t : Nat) (a s : String) : RawRow :=
  { timestamp := some t, artist := some a, song := some s, artwork := none }

/-- A sample cleaned record. -/
def mkRec (t : Nat) (a s : String) : Record := toRecord (mkRow t a s)

/-- The derived weekday name is always one of the seven weekday names. -/
theorem dayName_mem (t : Nat) : dayName t ∈ dayNames := by
  have h7 : (t / 86400 + 3) % 7 < dayNames.length := by
    simp only [dayNames, List.length_cons, List.length_nil]
    omega
  rw [dayName, List.getD_eq_getElem _ _ h7]
  exact List.getElem_mem h7

/-- The derived hour is always at most 23. -/
theorem hourOf_le (t : Nat) : hourOf t ≤ 23 := by
  rw [hourOf]
  omega

/-- Inversion for a successful load: the dataset is exactly the sentinel-free
rows, cleaned. -/
theorem load_data_ok_inv {src : RawSource} {d : List Record}
    (h : load_data src = .ok d) : d = (src.rows.filter keepRow).map toRecord := by
  unfold load_data at h
  split_ifs at h
  exact (Except.ok.inj h).symm

/-- Every value named by a rank-count aggregate comes from some row's field. -/
theorem topN_key_from_row (df : List Record) (field : Record → Option String)
    (n : Nat) {p : String × Nat} (hp : p ∈ topN df field n) :
    ∃ rec ∈ df, field rec = some p.1 := by
  have h1 : p ∈ value_counts (df.map field) := List.mem_of_mem_take hp
  have h2 : p ∈ basePairs (df.map field) :=
    (List.perm_insertionSort countDesc _).mem_iff.1 h1
  rw [basePairs] at h2
  obtain ⟨k, hk, hkp⟩ := List.mem_map.1 h2
  have hk2 : k ∈ (df.map field).filterMap id := mem_firstSeen.1 hk
  obtain ⟨v, hv, hvk⟩ := List.mem_filterMap.1 hk2
  obtain ⟨rec, hrec, hrv⟩ := List.mem_map.1 hv
  have hv2 : v = some k := hvk
  subst hv2
  refine ⟨rec, hrec, ?_⟩
  rw [← hkp]
  exact hrv

/-- Witness for C2: a concrete Monday-10:00 record is discarded by the
inverted hour range (5, 3), without an error. -/
theorem filter_data_empty_cases_witness :
    filter_data [mkRec 381600 "Artist A" "Song X"] ["Monday"] (5, 3) = [] :=
  (filter_data_empty_cases [mkRec 381600 "Artist A" "Song X"] ["Monday"] 5 3).2
    (by decide)

/-- Claim C3: the load drops a source row exactly when its artist equals the
network-identity sentinel or its song equals the promo sentinel, and no
record with a sentinel artist or song appears in the loaded dataset, in any
filtered view of it, or among the values of the rank-count aggregates. -/
theorem load_data_sentinel_free (src : RawSource) (d : List Record)
    (h : load_data src = .ok d) (days : List String) (s e n : Nat) :
    (∀ r ∈ src.rows, toRecord r ∈ d ↔
      ¬(r.artist = some sentinelArtist ∨ r.song = some sentinelSong)) ∧
    (∀ rec ∈ d, rec.artist ≠ some sentinelArtist ∧ rec.song ≠ some sentinelSong) ∧
    (∀ rec ∈ filter_data d days (s, e),
      rec.artist ≠ some sentinelArtist ∧ rec.song ≠ some sentinelSong) ∧
    (∀ p ∈ topN (filter_data d days (s, e)) (fun rec => rec.song) n,
      p.1 ≠ sentinelSong) ∧
    (∀ p ∈ topN (filter_data d days (s, e)) (fun rec => rec.artist) n,
      p.1 ≠ sentinelArtist) := by
  have hd := load_data_ok_inv h
  have hmem : ∀ rec ∈ d,
      rec.artist ≠ some sentinelArtist ∧ rec.song ≠ some sentinelSong := by
    intro rec hrec
    rw [hd] at hrec
    obtain ⟨r, hr, hrrec⟩ := List.mem_map.1 hrec
    have hkeep := (List.mem_filter.1 hr).2
    simp only [keepRow, Bool.not_eq_eq_eq_not, Bool.not_true, Bool.or_eq_false_iff,
      decide_eq_false_iff_not] at hkeep
    have ha : rec.artist = r.artist := by rw [← hrrec]; rfl
    have hs : rec.song = r.song := by rw [← hrrec]; rfl
    rw [ha, hs]
    exact hkeep
  have hfiltmem : ∀ rec ∈ filter_data d days (s, e),
      rec.artist ≠ some sentinelArtist ∧ rec.song ≠ some sentinelSong := by
    intro rec hrec
    exact hmem rec ((List.filter_sublist d).mem hrec)
  refine ⟨?_, hmem, hfiltmem, ?_, ?_⟩
  · intro r hr
    constructor
    · intro hmem2
      rw [hd] at hmem2
      obtain ⟨r2, hr2, heq⟩ := List.mem_map.1 hmem2
      have hkeep := (List.mem_filter.1 hr2).2
      simp only [keepRow, Bool.not_eq_eq_eq_not, Bool.not_true, Bool.or_eq_false_iff,
        decide_eq_false_iff_not] at hkeep
      have ha : r2.artist = r.artist := congrArg Record.artist heq
      have hs : r2.song = r.song := congrArg Record.song heq
      rw [ha, hs] at hkeep
      rintro (h1 | h1)
      · exact hkeep.1 h1
      · exact hkeep.2 h1
    · intro hclean
      rw [hd]
      apply List.mem_map_of_mem
      rw [List.mem_filter]
      refine ⟨hr, ?_⟩
      simp only [keepRow, Bool.not_eq_eq_eq_not, Bool.not_true, Bool.or_eq_false_iff,
        decide_eq_false_iff_not]
      exact ⟨fun h1 => hclean (Or.inl h1), fun h1 => hclean (Or.inr h1)⟩
  · intro p hp
    obtain ⟨rec, hrec, hfield⟩ := topN_key_from_row _ _ _ hp
    intro hbad
    exact (hfiltmem rec hrec).2 (by rw [hfield, hbad])
  · intro p hp
    obtain ⟨rec, hrec, hfield⟩ := topN_key_from_row _ _ _ hp
    intro hbad
    exact (hfiltmem rec hrec).1 (by rw [hfield, hbad])

/-- A concrete source mixing music rows with one network-identity row and one
promo row. -/
def srcMix : RawSource :=
  { cols := ["timestamp", "artist", "song"],
    rows := [mkRow 345600 "Artist A" "Song X",
             mkRow 349200 sentinelArtist "Station ID",
             mkRow 352800 "Artist B" sentinelSong,
             mkRow 356400 "Artist A" "Song X"] }

/-- The dataset the model loads from `srcMix`. -/
def dMix : List Record := (srcMix.rows.filter keepRow).map toRecord

/-- Witness for C3: the promo row of `srcMix` does not survive the load. -/
theorem load_data_sentinel_free_witness :
    toRecord (mkRow 352800 "Artist B" sentinelSong) ∉ dMix := by
  intro hmem
  have h := (load_data_sentinel_free srcMix dMix rfl ["Monday"] 0 23 30).1
    (mkRow 352800 "Artist B" sentinelSong) (by decide)
  exact h.1 hmem (Or.inr rfl)

/-- Claim C7: if no source row carries a sentinel artist or a sentinel song,
loading and then filtering with all seven weekday names and the hour range
[0, 24] yields exactly as many rows as the source. -/
theorem load_filter_roundtrip (src : RawSource) (d : List Record)
    (h : load_data src = .ok d)
    (hclean : ∀ r ∈ src.rows,
      r.artist ≠ some sentinelArtist ∧ r.song ≠ some sentinelSong) :
    (filter_data d dayNames (0, 24)).length = src.rows.length := by
  have hd := load_data_ok_inv h
  have hfilter : src.rows.filter keepRow = src.rows := by
    rw [List.filter_eq_self]
    intro r hr
    simp [keepRow, (hclean r hr).1, (hclean r hr).2]
  have hall : filter_data d dayNames (0, 24) = d := by
    rw [filter_data, List.filter_eq_self]
    intro rec hrec
    rw [hd] at hrec
    obtain ⟨r, _, hrrec⟩ := List.mem_map.1 hrec
    have hdow : rec.day_of_week = dayName (r.timestamp.getD 0) := by rw [← hrrec]; rfl
    have hhour : rec.hour = hourOf (r.timestamp.getD 0) := by rw [← hrrec]; rfl
    simp only [rowPass, Bool.and_eq_true, decide_eq_true_eq]
    refine ⟨?_, Nat.zero_le _, ?_⟩
    · rw [hdow]; exact dayName_mem _
    · rw [hhour]; exact Nat.le_trans (hourOf_le _) (by omega)
  rw [hall, hd, List.length_map, hfilter]

/-- A concrete sentinel-free source. -/
def srcClean : RawSource :=
  { cols := ["timestamp", "artist", "song"],
    rows := [mkRow 345600 "Artist A" "Song X", mkRow 435600 "Artist B" "Song Y"] }

/-- The dataset the model loads from `srcClean`. -/
def dClean : List Record := (srcClean.rows.filter keepRow).map toRecord

/-- Witness for C7: the round trip preserves the row count of `srcClean`. -/
theorem load_filter_roundtrip_witness :
    (filter_data dClean dayNames (0, 24)).length = srcClean.rows.length :=
  load_filter_roundtrip srcClean dClean rfl (by decide)

/-- Claim C9: the load fails — producing an error and no dataset, so no
aggregation can run — exactly when one of the required columns `timestamp`,
`artist`, `song` is absent or some timestamp cell is unparseable. -/
theorem load_data_error_iff (src : RawSource) :
    (∃ err, load_data src = .error err) ↔
      ("timestamp" ∉ src.cols ∨ "artist" ∉ src.cols ∨ "song" ∉ src.cols ∨
        ∃ r ∈ src.rows, r.timestamp = none) := by
  unfold load_data
  split_ifs with h1 h2 h3 h4 <;>
    simp_all [List.any_eq_true, Option.isNone_iff_eq_none]

/-- A source missing the required `song` column. -/
def srcNoSong : RawSource :=
  { cols := ["timestamp", "artist"], rows := [mkRow 345600 "Artist A" "Song X"] }

/-- Witness for C9: loading a source without a `song` column fails. -/
theorem load_data_error_iff_witness : ∃ err, load_data srcNoSong = .error err :=
  (load_data_error_iff srcNoSong).mpr (by decide)

/-- The sorted count list is a permutation of the first-encounter count list. -/
theorem value_counts_perm (vals : List (Option String)) :
    (value_counts vals).Perm (basePairs vals) :=
  List.perm_insertionSort countDesc _

/-- The sorted count list has non-increasing counts. -/
theorem value_counts_sorted (vals : List (Option String)) :
    (value_counts vals).Pairwise countDesc :=
  List.sorted_insertionSort countDesc _

/-- A filter is idempotent on lists. -/
theorem filter_self_eq {α : Type} (p : α → Bool) (l : List α) :
    (l.filter p).filter p = l.filter p :=
  List.filter_eq_self.2 fun _ ha => (List.mem_filter.1 ha).2

/-- Stability of the count sort: restricted to any fixed count value, the
sorted count list coincides with the first-encounter count list — ties keep
first-encounter order. -/
theorem value_counts_stable (vals : List (Option String)) (c : Nat) :
    (value_counts vals).filter (fun p => p.2 == c) =
      (basePairs vals).filter (fun p => p.2 == c) := by
  have hpw : ((basePairs vals).filter (fun p => p.2 == c)).Pairwise countDesc := by
    apply List.pairwise_of_forall_mem_list
    intro a ha b hb
    have ha2 : a.2 = c := by simpa using List.of_mem_filter ha
    have hb2 : b.2 = c := by simpa using List.of_mem_filter hb
    show b.2 ≤ a.2
    omega
  have hsub : ((basePairs vals).filter (fun p => p.2 == c)).Sublist
      (value_counts vals) :=
    List.sublist_insertionSort hpw (List.filter_sublist _)
  have hsub2 : ((basePairs vals).filter (fun p => p.2 == c)).Sublist
      ((value_counts vals).filter (fun p => p.2 == c)) := by
    have h := hsub.filter (fun p => p.2 == c)
    rwa [filter_self_eq] at h
  have hperm : ((value_counts vals).filter (fun p => p.2 == c)).Perm
      ((basePairs vals).filter (fun p => p.2 == c)) :=
    (value_counts_perm vals).filter _
  exact (hsub2.eq_of_length hperm.length_eq.symm).symm

/-- The first-encounter counts sum to the number of non-missing values. -/
theorem countsSum_basePairs (vals : List (Option String)) :
    countsSum (basePairs vals) = (vals.filterMap id).length := by
  rw [countsSum, basePairs, List.map_map]
  have h : ((fun p : String × Nat => p.2) ∘
      fun k => (k, (vals.filterMap id).count k)) =
      fun k => (vals.filterMap id).count k := rfl
  rw [h]
  exact sum_counts_firstSeen _

/-- Sorting does not change the total count. -/
theorem countsSum_value_counts (vals : List (Option String)) :
    countsSum (value_counts vals) = (vals.filterMap id).length := by
  rw [countsSum, ← countsSum_basePairs, countsSum]
  exact ((value_counts_perm vals).map _).sum_eq

/-- When no value is missing, every value survives `dropna`. -/
theorem filterMap_id_length_of_no_none {l : List (Option String)}
    (h : ∀ v ∈ l, v ≠ none) : (l.filterMap id).length = l.length := by
  induction l with
  | nil => rfl
  | cons v l ih =>
    cases v with
    | none => exact absurd rfl (h none (List.mem_cons_self _ _))
    | some _ =>
      rw [List.filterMap_cons]
      simp only [id]
      rw [List.length_cons, List.length_cons,
        ih fun v hv => h v (List.mem_cons_of_mem _ hv)]

/-- Claim C4 (amended): `topN` returns at most `n` pairs with non-increasing
counts; ties keep the first-encounter order of the values (restricting the
sorted count list to any one count value reproduces the first-encounter
list); the returned counts sum to at most the row count, with equality when
the field has no missing values and the number of distinct values is at most
`n`. (The claim as stated omits the distinct-values condition.) -/
theorem topN_spec (df : List Record) (field : Record → Option String) (n : Nat) :
    (topN df field n).length ≤ n ∧
    (topN df field n).Pairwise (fun a b => b.2 ≤ a.2) ∧
    (∀ c : Nat, (value_counts (df.map field)).filter (fun p => p.2 == c) =
      (basePairs (df.map field)).filter (fun p => p.2 == c)) ∧
    countsSum (topN df field n) ≤ df.length ∧
    ((∀ r ∈ df, field r ≠ none) → (basePairs (df.map field)).length ≤ n →
      countsSum (topN df field n) = df.length) := by
  have hsumtake : countsSum (topN df field n) ≤ countsSum (value_counts (df.map field)) := by
    rw [countsSum, countsSum]
    exact ((List.take_sublist n _).map _).sum_le_sum fun a _ => Nat.zero_le a
  have hxs : ((df.map field).filterMap id).length ≤ df.length := by
    calc ((df.map field).filterMap id).length ≤ (df.map field).length :=
          List.length_filterMap_le _ _
      _ = df.length := List.length_map _ _
  refine ⟨List.length_take_le n _, ?_, value_counts_stable _, ?_, ?_⟩
  · exact (value_counts_sorted (df.map field)).sublist (List.take_sublist n _)
  · calc countsSum (topN df field n) ≤ countsSum (value_counts (df.map field)) := hsumtake
      _ = ((df.map field).filterMap id).length := countsSum_value_counts _
      _ ≤ df.length := hxs
  · intro hnone hdist
    have hfull : topN df field n = value_counts (df.map field) := by
      rw [topN]
      apply List.take_of_length_le
      rw [(value_counts_perm (df.map field)).length_eq]
      exact hdist
    rw [hfull, countsSum_value_counts,
      filterMap_id_length_of_no_none (fun v hv => ?_), List.length_map]
    obtain ⟨r, hr, hrv⟩ := List.mem_map.1 hv
    rw [← hrv]
    exact hnone r hr

/-- Two rows with the same song and one with another song. -/
def dfPair : List Record :=
  [mkRec 345600 "Artist A" "Song X", mkRec 349200 "Artist A" "Song X",
   mkRec 352800 "Artist B" "Song Y"]

/-- Witness for C4: on `dfPair` with `n = 2` (two distinct songs, none
missing) the returned counts sum to the full row count. -/
theorem topN_spec_witness :
    countsSum (topN dfPair (fun r => r.song) 2) = dfPair.length :=
  (topN_spec dfPair (fun r => r.song) 2).2.2.2.2 (by decide) (by decide)

/-- Two rows with distinct songs. -/
def dfTwo : List Record :=
  [mkRec 345600 "Artist A" "Song X", mkRec 349200 "Artist B" "Song Y"]

/-- Counterexample to C4 as stated: `dfTwo` has no missing song values, yet
`topN` with `n = 1` returns counts summing to 1 while the dataset has 2 rows
— equality needs the number of distinct values to be at most `n`. -/
theorem topN_spec_counterexample :
    (∀ r ∈ dfTwo, r.song ≠ none) ∧
    countsSum (topN dfTwo (fun r => r.song) 1) = 1 ∧ dfTwo.length = 2 := by
  refine ⟨by decide, by decide, rfl⟩

/-- Claim C6: the day x hour table lists each occurring (day_of_week, hour)
pair exactly once, mapped to its positive row count; absent pairs have no
entry; and the counts sum to the dataset's row count. -/
theorem heatmap_df_spec (df : List Record) :
    ((heatmap_df df).map (fun e => e.1)).Nodup ∧
    (∀ k c, (k, c) ∈ heatmap_df df →
      c = (df.map (fun r => (r.day_of_week, r.hour))).count k ∧ 0 < c) ∧
    (∀ k, k ∈ df.map (fun r => (r.day_of_week, r.hour)) ↔
      ∃ c, (k, c) ∈ heatmap_df df) ∧
    ((heatmap_df df).map (fun e => e.2)).sum = df.length := by
  refine ⟨?_, ?_, ?_, ?_⟩
  · rw [heatmap_df, List.map_map]
    have h : ((fun e : (String × Nat) × Nat => e.1) ∘
        fun k => (k, (df.map (fun r => (r.day_of_week, r.hour))).count k)) = id := rfl
    rw [h, List.map_id]
    exact nodup_firstSeen _
  · intro k c hkc
    rw [heatmap_df] at hkc
    obtain ⟨k2, hk2, heq⟩ := List.mem_map.1 hkc
    have h1 : k2 = k := congrArg Prod.fst heq
    have h2 : (df.map (fun r => (r.day_of_week, r.hour))).count k2 = c :=
      congrArg Prod.snd heq
    subst h1
    exact ⟨h2.symm, h2 ▸ List.count_pos_iff.2 (mem_firstSeen.1 hk2)⟩
  · intro k
    constructor
    · intro hk
      exact ⟨_, List.mem_map_of_mem _ (mem_firstSeen.2 hk)⟩
    · rintro ⟨c, hkc⟩
      rw [heatmap_df] at hkc
      obtain ⟨k2, hk2, heq⟩ := List.mem_map.1 hkc
      have h1 : k2 = k := congrArg Prod.fst heq
      rw [← h1]
      exact mem_firstSeen.1 hk2
  · rw [heatmap_df, List.map_map]
    have h : ((fun e : (String × Nat) × Nat => e.2) ∘
        fun k => (k, (df.map (fun r => (r.day_of_week, r.hour))).count k)) =
        fun k => (df.map (fun r => (r.day_of_week, r.hour))).count k := rfl
    rw [h, sum_counts_firstSeen, List.length_map]

/-- Two records in the same day-hour cell. -/
def dfHeat : List Record :=
  [mkRec 345600 "Artist A" "Song X", mkRec 345800 "Artist A" "Song Y"]

/-- Witness for C6: the Monday-midnight cell of `dfHeat` holds count 2. -/
theorem heatmap_df_spec_witness :
    (2 : Nat) = (dfHeat.map (fun r => (r.day_of_week, r.hour))).count ("Monday", 0) ∧
      (0 : Nat) < 2 :=
  (heatmap_df_spec dfHeat).2.1 ("Monday", 0) 2 (by decide)

/-- Claim C8: on an empty dataset, all four aggregations — rank counts, the
inter-play gap table, the day x hour table, and the daily series — return
empty results; being total functions, they cannot raise. -/
theorem empty_dataset_aggregates (field : Record → Option String) (n : Nat) :
    topN [] field n = [] ∧ avg_data [] = [] ∧ heatmap_df [] = [] ∧
    dailyCounts [] = [] := by
  refine ⟨?_, rfl, rfl, rfl⟩
  simp [topN, value_counts, basePairs, firstSeen, firstSeenAux]

/-- The number of consecutive differences is one less than the number of
timestamps. -/
theorem diffsHours_length (l : List Nat) : (diffsHours l).length = l.length - 1 := by
  rw [diffsHours, List.length_zipWith, List.length_tail]
  omega

/-- Plays at 0:00, 2:00 and 5:00 of the same (epoch) day. -/
def ex025 : List Record :=
  [mkRec 0 "Artist A" "Song X", mkRec 7200 "Artist A" "Song X",
   mkRec 18000 "Artist A" "Song X"]

/-- Claim C5 (amended): the per-song gap statistic is absent — never 0 — when
the song has fewer than two plays; otherwise it equals the arithmetic mean,
in hours, of the consecutive differences of the sorted timestamps, rounded
to two decimal places (the claim omits the rounding, which `round(avg, 2)`
applies); for plays at hours 0, 2 and 5 of one day it is exactly 5/2. -/
theorem avgGap_spec :
    (∀ (df : List Record) (s : String),
      ((df.filter (fun r => decide (r.song = some s))).length < 2 →
        avgGap df s = none) ∧
      avgGap df s = (specMeanGap df s).map round2) ∧
    avgGap ex025 "Song X" = some (5 / 2) := by
  have hlen : ∀ (df : List Record) (s : String),
      (songTimes df s).length = (df.filter (fun r => decide (r.song = some s))).length := by
    intro df s
    rw [songTimes, List.length_insertionSort, List.length_map]
  constructor
  · intro df s
    constructor
    · intro hlt
      rw [avgGap, if_pos]
      rw [List.isEmpty_iff_length_eq_zero, diffsHours_length, hlen]
      omega
    · rw [avgGap, specMeanGap]
      by_cases h2 : (songTimes df s).length < 2
      · rw [if_pos, if_pos h2]
        · rfl
        · rw [List.isEmpty_iff_length_eq_zero, diffsHours_length]
          omega
      · rw [if_neg, if_neg h2]
        · rfl
        · rw [List.isEmpty_iff_length_eq_zero, diffsHours_length]
          omega
  · simp only [avgGap, songTimes, ex025, mkRec, mkRow, toRecord, diffsHours,
      List.insertionSort, List.orderedInsert, round2, pyRound, ratFloor]
    norm_num

/-- One single play of the song. -/
def exOne : List Record := [mkRec 0 "Artist A" "Song X"]

/-- Witness for C5: with a single play the statistic is absent, not 0. -/
theorem avgGap_spec_witness : avgGap exOne "Song X" = none :=
  (avgGap_spec.1 exOne "Song X").1 (by decide)

/-- Two plays of the song ten seconds apart. -/
def exTen : List Record :=
  [mkRec 0 "Artist A" "Song X", mkRec 10 "Artist A" "Song X"]

/-- Counterexample to C5 as stated: for two plays 10 seconds apart the stored
statistic is 0 (the mean 1/360 h rounded to two decimals), while the
arithmetic mean of the gaps is 1/360 — the statistic does not equal the
arithmetic mean because the code rounds it. -/
theorem avgGap_counterexample :
    avgGap exTen "Song X" = some 0 ∧ specMeanGap exTen "Song X" = some (1 / 360) ∧
    avgGap exTen "Song X" ≠ specMeanGap exTen "Song X" := by
  have h1 : avgGap exTen "Song X" = some 0 := by
    simp only [avgGap, songTimes, exTen, mkRec, mkRow, toRecord, diffsHours,
      List.insertionSort, List.orderedInsert, round2, pyRound, ratFloor]
    norm_num
    rw [(by decide : Int.fdiv 5 18 = 0)]
    norm_num
  have h2 : specMeanGap exTen "Song X" = some (1 / 360) := by
    simp only [specMeanGap, songTimes, exTen, mkRec, mkRow, toRecord, diffsHours,
      List.insertionSort, List.orderedInsert]
    norm_num
  refine ⟨h1, h2, ?_⟩
  rw [h1, h2]
  intro h
  have h3 : (0 : ℚ) = 1 / 360 := Option.some.inj h
  norm_num at h3

end WMRadio
